import Mathlib

/-!
# Verification of the treb deployment orchestrator core

Shallow embedding, in Lean 4, of the core of the `treb` deployment
orchestrator (a Python program): the address model (`treb/core/address.py`),
the plan data model and address resolver (`treb/core/plan.py`), the planner
(`generate_plan`), the executor (`treb/core/execute.py`), the revision store
(`treb/core/state.py`) and the dependency-edge extractor
(`treb/core/strategy.py`).

Python runtime conventions used throughout the embedding:

* Python exceptions are modelled with `Except PyErr`; a raised exception is
  `Except.error`.
* Python `dict`s keyed by `Address` are modelled as association lists looked
  up with the `Address.__eq__` relation, which compares `base` and `name`
  only (`attr` is ignored).
* Opaque Python values (snapshots, results, resolved artifacts) are modelled
  by the inductive type `Value`, which also mirrors the JSON trees produced
  by `cattrs.unstructure` / `json` in the revision store.
* The behaviour of the user-supplied hook methods (`snapshot`, `run`,
  `rollback`, `check`, `exists`, `resolve`, `state`) is external code from
  the core's point of view; each hook is modelled by its outcome for the
  execution under consideration (a returned value or a raised exception).
-/

namespace Treb

/-! ## Addresses (`treb/core/address.py`) -/

/-- The `Address` attrs class: `base`, `name` and the optional `attr`
projection path (a dot-delimited string). The attrs name validator is not
enforced by the structure itself; `is_valid_name` below embeds the
validation predicate. -/
structure Address where
  base : String
  name : String
  attr : Option String := none
deriving DecidableEq, Repr, Inhabited

/-- `Address.__eq__`: equality uses `base` and `name` only; `attr` is a
projection, not identity. Python `dict`/`set` membership for addresses uses
this relation (`__hash__` hashes `str(self)`, which also ignores `attr`). -/
def addrEq (a b : Address) : Bool :=
  a.base == b.base && a.name == b.name

/-- Python `str.partition(sep)` for a one-character separator, on the
character list of the string: everything before the first occurrence of
`sep`, and everything after it (empty when `sep` does not occur). -/
def partitionChar (sep : Char) : List Char → (List Char × List Char)
  | [] => ([], [])
  | c :: rest =>
    if c == sep then ([], rest)
    else
      let (pre, post) := partitionChar sep rest
      (c :: pre, post)

/-- `Address.from_string`: parses `:name[#attr]` (relative, resolved against
`base`) or `//base:name[#attr]` (absolute). An input with neither leading
`:` nor `//` raises `ValueError`; the embedding totalises that case with
`none`. `rpartition(":")` keeps everything after the last `:` as the name
part (so the base may contain colons); `partition("#")` splits off the
attr, and an empty attr becomes `None`. -/
def Address.fromString (base : String) (addr : String) : Option Address :=
  let mk (baseCs tailCs : List Char) : Address :=
    let (nameCs, attrCs) := partitionChar '#' tailCs
    { base := String.mk baseCs
      name := String.mk nameCs
      attr := if attrCs.isEmpty then none else some (String.mk attrCs) }
  match addr.toList with
  | ':' :: rest => some (mk base.toList rest)
  | '/' :: '/' :: body =>
    -- rpartition(":"): partition at the last colon; when there is no
    -- colon the base is empty and the whole body is the name part
    let (revTail, revBase) := partitionChar ':' body.reverse
    if revBase.isEmpty && !body.contains ':' then
      some (mk [] body)
    else
      some (mk revBase.reverse revTail.reverse)
  | _ => none

/-! ## Name validation (`is_valid_name`)

`is_valid_name` calls the Python built-ins `str.isalpha` and `str.isalnum`,
which follow the full Unicode character database, not ASCII. The embedding
models those built-ins faithfully for every code point below 256 (ASCII and
Latin-1); the reference data is the Unicode `Alphabetic` and
`Numeric_Type` properties on that range. All inputs examined by the
theorems stay within that range. -/

/-- Python `str.isalpha` on a single character, for code points < 256.
Besides ASCII letters, the Latin-1 block contains the letters `ª` (0xAA),
`µ` (0xB5), `º` (0xBA), and the accented letters 0xC0–0xFF except the
multiplication and division signs 0xD7 and 0xF7. -/
def pyIsAlpha (c : Char) : Bool :=
  (0x41 ≤ c.toNat && c.toNat ≤ 0x5A) ||
  (0x61 ≤ c.toNat && c.toNat ≤ 0x7A) ||
  c.toNat == 0xAA || c.toNat == 0xB5 || c.toNat == 0xBA ||
  (0xC0 ≤ c.toNat && c.toNat ≤ 0xFF && c.toNat != 0xD7 && c.toNat != 0xF7)

/-- Python `str.isalnum` on a single character, for code points < 256:
alphabetic characters, the ASCII digits, the superscripts `²` `³` `¹`
(0xB2, 0xB3, 0xB9) and the vulgar fractions `¼` `½` `¾` (0xBC–0xBE). -/
def pyIsAlnum (c : Char) : Bool :=
  pyIsAlpha c ||
  (0x30 ≤ c.toNat && c.toNat ≤ 0x39) ||
  c.toNat == 0xB2 || c.toNat == 0xB3 || c.toNat == 0xB9 ||
  c.toNat == 0xBC || c.toNat == 0xBD || c.toNat == 0xBE

/-- `is_valid_name` from `treb/core/address.py`: non-empty, first character
`isalpha`, last character not `-`, and every character `isalnum` or `-`. -/
def isValidName (name : String) : Bool :=
  let cs := name.toList
  match cs with
  | [] => false
  | c0 :: _ =>
    if !pyIsAlpha c0 then false
    else if cs.getLast! == '-' then false
    else cs.all (fun ch => pyIsAlnum ch || ch == '-')

/-- The name grammar stated by the specification: `[A-Za-z][A-Za-z0-9-]*`
with no trailing `-`. Written from the spec's words, to be compared with
`isValidName` (which is translated from the source). -/
def specNameGrammar (name : String) : Bool :=
  let asciiAlpha (c : Char) : Bool :=
    (0x41 ≤ c.toNat && c.toNat ≤ 0x5A) || (0x61 ≤ c.toNat && c.toNat ≤ 0x7A)
  let asciiAlnumDash (c : Char) : Bool :=
    asciiAlpha c || (0x30 ≤ c.toNat && c.toNat ≤ 0x39) || c == '-'
  match name.toList with
  | [] => false
  | c0 :: rest =>
    asciiAlpha c0 && rest.all asciiAlnumDash &&
    !((c0 :: rest).getLast! == '-')

/-! ## Values

Opaque Python values as the core sees them: hook results, snapshots,
resolved artifacts and their serialized (JSON) forms. `placeholder` is the
planner's `_RESULT_PLACEHOLDER` (an object answering every attribute access
with `_DUMMY`), and `dummy` is `_DUMMY` itself (a bare `object()` with no
attributes). Neither is JSON-serializable. -/
inductive Value where
  | vnone : Value
  | vbool : Bool → Value
  | vint : Int → Value
  | vstr : String → Value
  | vlist : List Value → Value
  | vobj : List (String × Value) → Value
  | placeholder : Value
  | dummy : Value
deriving Repr, Inhabited

/-! ## Plan data model (`treb/core/plan.py`) -/

/-- `ActionState`. -/
inductive ActionState where
  | planned | inProgress | failed | done | cancelled
deriving DecidableEq, Repr, Inhabited

/-- `ActionType`. -/
inductive ActionType where
  | check | run | rollback
deriving DecidableEq, Repr, Inhabited

/-- An `Action` of a plan. `snapshot`, `result` and `error` are opaque
payloads typed `Optional[...]` in the source; a Python value that may be
`None` is a single value, so each is modelled as a `Value` whose default is
`vnone`. -/
structure Action where
  type : ActionType
  address : Address
  state : ActionState := .planned
  snapshot : Value := .vnone
  result : Value := .vnone
  error : Value := .vnone
deriving Repr, Inhabited

/-- A `Plan` is an ordered list of actions. -/
structure Plan where
  actions : List Action
deriving Repr

/-! ## Python errors -/

/-- The exceptions that can cross the boundaries of the embedded functions.
`outOfFuel` is an artifact of the embedding of the planner's `while` loop
(it never occurs when the fuel exceeds twice the number of pending nodes). -/
inductive PyErr where
  | unresolvable : Address → PyErr       -- `UnresolvableAddress(address)`
  | unknownAddresses : List Address → PyErr -- `UnknownAddresses(addresses)`
  | failedCheck : Value → PyErr          -- `FailedCheck(result)`
  | attributeError : PyErr               -- `AttributeError` from `attrgetter`
  | raisedError : Value → PyErr          -- any other exception raised by a hook
  | valueError : String → PyErr          -- `ValueError`
  | typeError : String → PyErr           -- `TypeError`
  | specNotFound : PyErr                 -- `Exception("action's spec not found: ...")`
  | outOfFuel : PyErr
deriving Repr

/-! ## Address-keyed dictionaries

Python `dict`s keyed by `Address` use `Address.__eq__` / `__hash__`, which
ignore `attr`. They are modelled as association lists: `alookup` is `d[k]`
(`none` for `KeyError`), `ainsert` is `d[k] = v`, `aerase` is `del d[k]`
(on a dict the key is unique; `aerase` removes every `addrEq`-equal entry,
which coincides on duplicate-free lists). -/

def alookup {α : Type} (m : List (Address × α)) (k : Address) : Option α :=
  match m with
  | [] => none
  | (k', v) :: rest => if addrEq k' k then some v else alookup rest k

def amem {α : Type} (m : List (Address × α)) (k : Address) : Bool :=
  (alookup m k).isSome

def ainsert {α : Type} (m : List (Address × α)) (k : Address) (v : α) :
    List (Address × α) :=
  match m with
  | [] => [(k, v)]
  | (k', v') :: rest =>
    if addrEq k' k then (k', v) :: rest else (k', v') :: ainsert rest k v

def aerase {α : Type} (m : List (Address × α)) (k : Address) :
    List (Address × α) :=
  m.filter (fun e => !addrEq e.1 k)

/-- The dict union `a | b`: entries of both, the right operand winning on
key collisions. -/
def aunion {α : Type} (a b : List (Address × α)) : List (Address × α) :=
  b.foldl (fun acc e => ainsert acc e.1 e.2) a

/-- Python list/set membership `k in xs` for addresses (`__eq__`-based). -/
def acontains (xs : List Address) (k : Address) : Bool :=
  xs.any (fun a => addrEq a k)

/-! ## Address resolution (`resolve_addresses` in `treb/core/plan.py`)

`resolve_addresses` is a `singledispatch` over the runtime shape of the
dependency value. The shapes that occur in a strategy's dependency mapping
are addresses, dicts, sequences (list/tuple/set, all traversed the same
way) and verbatim non-compound values; `Dep` models them. -/

inductive Dep where
  | addr : Address → Dep
  | dmap : List (String × Dep) → Dep
  | dseq : List Dep → Dep
  | lit : Value → Dep
deriving Repr

/-- `operator.attrgetter` for a single path component: attribute lookup on
the resolved value. `_RESULT_PLACEHOLDER` answers every attribute with
`_DUMMY`; `_DUMMY` (and every non-object value) has no attributes, so the
access raises `AttributeError`. Attribute access on a model object looks up
the named field. -/
def getAttrV (v : Value) (field : String) : Except PyErr Value :=
  match v with
  | .placeholder => .ok .dummy
  | .vobj fields =>
    match fields.lookup field with
    | some w => .ok w
    | none => .error .attributeError
  | _ => .error .attributeError

/-- `operator.attrgetter(attr)(value)`: traverses the dot-delimited path. -/
def getAttrPath (path : String) (v : Value) : Except PyErr Value :=
  go (splitPath path.toList) v
where
  /-- splits the attr string on `.` -/
  splitPath : List Char → List (List Char)
    | [] => [[]]
    | c :: rest =>
      match splitPath rest with
      | [] => [[]]
      | p :: ps => if c == '.' then [] :: p :: ps else (c :: p) :: ps
  go : List (List Char) → Value → Except PyErr Value
    | [], w => .ok w
    | p :: ps, w => do go ps (← getAttrV w (String.mk p))

mutual

/-- `resolve_addresses` on one dependency value: an `Address` leaf is looked
up in the results mapping (`KeyError` becomes `UnresolvableAddress`; the
optional `attr` projection is applied afterwards, and its failures are NOT
converted — an `AttributeError` propagates as such); dicts and sequences
are rebuilt with resolved children; any other value is returned verbatim. -/
def resolveDep (results : List (Address × Value)) : Dep → Except PyErr Value
  | .addr a =>
    match alookup results a with
    | none => .error (.unresolvable a)
    | some v =>
      match a.attr with
      | none => .ok v
      | some path => getAttrPath path v
  | .dmap entries => do pure (.vobj (← resolveDepEntries results entries))
  | .dseq xs => do pure (.vlist (← resolveDepList results xs))
  | .lit v => .ok v

def resolveDepEntries (results : List (Address × Value)) :
    List (String × Dep) → Except PyErr (List (String × Value))
  | [] => pure []
  | (s, d) :: rest => do
    let v ← resolveDep results d
    let vs ← resolveDepEntries results rest
    pure ((s, v) :: vs)

def resolveDepList (results : List (Address × Value)) :
    List Dep → Except PyErr (List Value)
  | [] => pure []
  | d :: rest => do
    let v ← resolveDep results d
    let vs ← resolveDepList results rest
    pure (v :: vs)

end

/-- `resolve_addresses` applied to a whole dependency mapping (the dict
`field name → dependency value` stored for a node): the dict branch of the
dispatch. -/
def resolveDeps (deps : List (String × Dep)) (results : List (Address × Value)) :
    Except PyErr (List (String × Value)) :=
  resolveDepEntries results deps

/-! ## The strategy graph (`treb/core/strategy.py`)

`execute.py` and `plan.py` consume the strategy through the accessors
`steps()`, `specs()`, `artifacts()`, `resources()`, `dependencies(addr)`
and `ctx()`. The `Strategy` class present in the repository's
`strategy.py` is an older revision that does not define those accessors,
so the record below is *modelled from the spec*: "The builder exposes
`steps()`, `artifacts()`, `resources()`, `checks()`, and
`dependencies(addr)` returning the full mapping of shapes for that address"
— `steps()` holds both steps and checks (`register_step` and
`register_check` both write the `_steps` dict), `dependencies` reads the
shape mapping recorded at registration (a `defaultdict`, so a missing
address yields an empty mapping), and the hook methods of the registered
spec objects are external code, modelled by their outcome for the execution
under consideration. -/

/-- The outcome of calling one user-supplied hook: a returned value, a
raised `FailedCheck(result)`, or any other raised exception. -/
inductive Outcome where
  | ok : Value → Outcome
  | failedCheck : Value → Outcome
  | raised : Value → Outcome
deriving Repr

/-- Converts a hook outcome into the effect of the call. -/
def Outcome.toExcept : Outcome → Except PyErr Value
  | .ok v => .ok v
  | .failedCheck r => .error (.failedCheck r)
  | .raised e => .error (.raisedError e)

/-- A node of the `_steps` dict: a `Step` or a `Check` spec. Only the
fields the planner and executor inspect are kept: the node kind (the
`isinstance` checks and `_get_action_type` dispatch on it) and the `after`
list of address strings. -/
inductive SpecNode where
  | step : (after : List String) → SpecNode
  | check : (after : List String) → SpecNode
deriving DecidableEq, Repr

def SpecNode.after : SpecNode → List String
  | .step a => a
  | .check a => a

/-- Modelled from the spec: the strategy as seen through its accessors.
`steps` is the `_steps` dict (steps and checks); `artifacts` maps each
artifact address to the outcome of its `exists(ctx)` hook and the value of
its `resolve(ctx)` hook; `resources` maps each resource address to its
`state(ctx)` value; `deps` is the recorded dependency-shape mapping.
The per-address hook outcomes (`snapshotOf`, `runOf`, `rollbackOf`,
`checkOf`) describe the external behaviour of the registered spec objects'
methods during the execution under consideration. -/
structure Strategy where
  steps : List (Address × SpecNode)
  artifacts : List (Address × (Bool × Value))
  resources : List (Address × Value)
  deps : List (Address × List (String × Dep))
  snapshotOf : Address → Outcome
  runOf : Address → Outcome
  rollbackOf : Address → Outcome
  checkOf : Address → Outcome

/-- `strategy.dependencies(addr)`: the shape mapping for `addr` (empty for
an unknown address — `_rev_graph` is a `defaultdict(dict)`). -/
def Strategy.dependencies (s : Strategy) (a : Address) : List (String × Dep) :=
  (alookup s.deps a).getD []

/-! ## The executor (`treb/core/execute.py`) -/

/-- `_execute_plan_planned`: moves the action at `action_idx` to
`IN_PROGRESS`. For a RUN action it first looks the step up in
`strategy.steps()` (`ValueError` when missing, `TypeError` when the node is
not a `Step`), resolves the step's dependency shape against `results`,
rebinds the step, calls `snapshot(ctx)` and stores the serialized snapshot
on the action. For CHECK and ROLLBACK no snapshot is captured. -/
def executePlanPlanned (strategy : Strategy) (plan : Plan) (actionIdx : Nat)
    (results : List (Address × Value)) : Except PyErr Plan := do
  let action := plan.actions[actionIdx]!
  let newAction := { action with state := .inProgress }
  let newAction ←
    if action.type = .run then do
      match alookup strategy.steps action.address with
      | none => throw (.valueError s!"step does not exist")
      | some (.check _) => throw (.typeError s!"node is not a step")
      | some (.step _) => do
        let _ ← resolveDeps (strategy.dependencies action.address) results
        let snapshot ← (strategy.snapshotOf action.address).toExcept
        pure { newAction with snapshot := snapshot }
    else
      pure newAction
  pure { plan with actions := plan.actions.set actionIdx newAction }

/-- `_perform_run`: resolves the step's dependencies, rebinds the step,
decodes the stored snapshot and calls `run(ctx, snapshot)`. The call's
outcome is external behaviour (`Strategy.runOf`). -/
def performRun (strategy : Strategy) (address : Address)
    (results : List (Address × Value)) : Except PyErr Value := do
  let _ ← resolveDeps (strategy.dependencies address) results
  (strategy.runOf address).toExcept

/-- `_perform_check`: resolves the check's dependencies, rebinds the check
and calls `check(ctx)`; a raised `FailedCheck` is re-raised. -/
def performCheck (strategy : Strategy) (address : Address)
    (results : List (Address × Value)) : Except PyErr Value := do
  let _ ← resolveDeps (strategy.dependencies address) results
  (strategy.checkOf address).toExcept

/-- `_perform_rollback`: resolves the step's dependencies, rebinds the
step, then decodes the stored snapshot with
`structure(inspect.signature(item.snapshot).return_annotation, snapshot)` —
the arguments of `cattrs.structure(obj, cl)` are swapped on line 101, so
cattrs dispatches on the *snapshot* as the target class: for any snapshot
other than `None` this raises a (non-`FailedCheck`) error before the
rollback hook runs. For a `None` snapshot the call structures the
annotation against `NoneType`, which succeeds for the hooks the
repository's executor test exercises (snapshot hooks annotated `-> None`);
a mismatched annotation there would be a further non-`FailedCheck` raise,
folded into the hook outcome `rollbackOf`. Only then is
`rollback(ctx, snapshot)` called. -/
def performRollback (strategy : Strategy) (address : Address)
    (snapshot : Value) (results : List (Address × Value)) :
    Except PyErr Value := do
  let _ ← resolveDeps (strategy.dependencies address) results
  match snapshot with
  | .vnone => (strategy.rollbackOf address).toExcept
  | _ => throw (.raisedError (.vstr "structure dispatched on a non-type snapshot"))

/-- The Python expression `action.state is not ActionType.ROLLBACK` on line
161 of `execute.py`: an identity comparison between an `ActionState` member
and an `ActionType` member. Members of distinct enums are never the same
object, so `is` is always `False` and the whole expression is always
`True`, whatever the state. -/
def stateIsNotActionTypeRollback (_ : ActionState) : Bool :=
  true

/-- `_execute_plan_in_progress`: performs the `IN_PROGRESS` action at
`action_idx` and returns the updated plan together with the
`start_rollback` flag. The spec is looked up in `strategy.specs()`
(modelled by the `_steps` dict — executed actions refer to steps and
checks); a missing spec raises. Only `FailedCheck` is caught: it marks the
action `DONE` with the check's reported result and sets `start_rollback`
to `action.state is not ActionType.ROLLBACK` (see
`stateIsNotActionTypeRollback`). Every other exception propagates. -/
def executePlanInProgress (strategy : Strategy) (plan : Plan) (actionIdx : Nat)
    (results : List (Address × Value)) : Except PyErr (Plan × Bool) := do
  let action := plan.actions[actionIdx]!
  match alookup strategy.steps action.address with
  | none => throw .specNotFound
  | some _ =>
    let attempt : Except PyErr Value :=
      match action.type with
      | .run => performRun strategy action.address results
      | .rollback => performRollback strategy action.address action.snapshot results
      | .check => performCheck strategy action.address results
    match attempt with
    | .ok res =>
      let newAction := { action with state := .done, result := res }
      pure ({ plan with actions := plan.actions.set actionIdx newAction }, false)
    | .error (.failedCheck r) =>
      let newAction := { action with state := .done, result := r }
      let startRollback := stateIsNotActionTypeRollback action.state
      pure ({ plan with actions := plan.actions.set actionIdx newAction }, startRollback)
    | .error e => throw e

/-- The rollback cascade of `execute_plan` (lines 206–227): keep
`actions[0..=idx]`, append a CANCELLED copy of every action after `idx`,
then append, for every RUN-type action in the prefix in reverse order, a
new `(ROLLBACK, address, PLANNED)` action. The appended `Action` call
passes `type`, `address`, `state`, `result=None` and `error=None` only, so
`snapshot` takes its default `None`. -/
def cascadeActions (actions : List Action) (idx : Nat) : List Action :=
  let doneActions := actions.take (idx + 1)
  let cancelledActions := (actions.drop (idx + 1)).map
    (fun a => { a with state := .cancelled })
  let rollbackActions := (doneActions.reverse.filter (fun a => a.type = .run)).map
    (fun a => { type := .rollback, address := a.address, state := .planned,
                snapshot := .vnone, result := .vnone, error := .vnone : Action })
  doneActions ++ cancelledActions ++ rollbackActions

/-- The initial results map of `execute_plan`: every artifact whose
`exists(ctx)` hook answers true is resolved via `resolve(ctx)`, and the
resource states are merged on top (`|`). -/
def initResults (strategy : Strategy) : List (Address × Value) :=
  aunion
    ((strategy.artifacts.filter (fun e => e.2.1)).map (fun e => (e.1, e.2.2)))
    strategy.resources

/-- The outcome of one iteration of `execute_plan`'s `while` loop. -/
inductive IterResult where
  /-- `idx >= len(plan.actions)`: the loop breaks. -/
  | halt : IterResult
  /-- the iteration completes, yielding the given plans (in order) and
  continuing with the given plan, results map and cursor. -/
  | next : List Plan → Plan → List (Address × Value) → Nat → IterResult
  /-- an exception propagates out of the generator. -/
  | err : PyErr → IterResult

/-- One iteration of the `while` loop of `execute_plan`: dispatch on the
state of the action under the cursor. A `PLANNED` action is moved to
`IN_PROGRESS` (the cursor does not advance); an `IN_PROGRESS` action is
performed, its result is written into the results map, the rollback
cascade replaces the plan's tail when `start_rollback` is set, and the
cursor advances; a terminal action (`FAILED`, `DONE`, `CANCELLED`) only
advances the cursor. -/
def execIter (strategy : Strategy) (plan : Plan)
    (results : List (Address × Value)) (idx : Nat) : IterResult :=
  if idx ≥ plan.actions.length then .halt
  else
    let action := plan.actions[idx]!
    match action.state with
    | .planned =>
      match executePlanPlanned strategy plan idx results with
      | .error e => .err e
      | .ok plan' => .next [plan'] plan' results idx
    | .inProgress =>
      match executePlanInProgress strategy plan idx results with
      | .error e => .err e
      | .ok (plan', startRollback) =>
        let results' := ainsert results action.address
          (plan'.actions[idx]!).result
        let plan'' :=
          if startRollback then { plan' with actions := cascadeActions plan'.actions idx }
          else plan'
        .next [plan''] plan'' results' (idx + 1)
    | .failed | .done | .cancelled => .next [] plan results (idx + 1)

/-- Runs `execute_plan`'s loop for at most `fuel` iterations, collecting
every yielded plan. The second component is the exception propagating out
of the generator, if any; a `none` with exhausted fuel means the run was
truncated. -/
def executeRun (strategy : Strategy) : Nat → Plan → List (Address × Value) →
    Nat → (List Plan × Option PyErr)
  | 0, _, _, _ => ([], none)
  | fuel + 1, plan, results, idx =>
    match execIter strategy plan results idx with
    | .halt => ([], none)
    | .err e => ([], some e)
    | .next yielded plan' results' idx' =>
      let (rest, e) := executeRun strategy fuel plan' results' idx'
      (yielded ++ rest, e)

/-- `execute_plan(strategy, plan)`: the whole generator, starting from the
initial results map and cursor 0. -/
def executePlan (strategy : Strategy) (plan : Plan) (fuel : Nat) :
    (List Plan × Option PyErr) :=
  executeRun strategy fuel plan (initResults strategy) 0

/-! ## The planner (`generate_plan` in `treb/core/plan.py`) -/

/-- `_get_action_type`: `Step → RUN`, `Check → CHECK`. -/
def getActionType : SpecNode → ActionType
  | .step _ => .run
  | .check _ => .check

/-- Python string comparison: lexicographic on code points. -/
def strLt : List Char → List Char → Bool
  | [], [] => false
  | [], _ :: _ => true
  | _ :: _, [] => false
  | a :: as, b :: bs =>
    if a.toNat < b.toNat then true
    else if b.toNat < a.toNat then false
    else strLt as bs

/-- Lexicographic comparison on the attrs ordering key `(base, name, attr)`
of `Address` (attrs generates `order=True` comparisons field by field;
`None` attrs never mix with strings in the planner because registered node
addresses carry no attr). -/
def addrLe (a b : Address) : Bool :=
  if a.base != b.base then strLt a.base.toList b.base.toList
  else if a.name != b.name then strLt a.name.toList b.name.toList
  else
    match a.attr, b.attr with
    | none, _ => true
    | some _, none => false
    | some x, some y => x == y || strLt x.toList y.toList

/-- `list(sorted(steps.items()))`: the pending dict snapshotted as a list
sorted by address (`sorted` is stable and keys are unique, so sorting by
the pair and by the key coincide). -/
def sortedSteps (steps : List (Address × SpecNode)) : List (Address × SpecNode) :=
  steps.insertionSort (fun x y => addrLe x.1 y.1)

/-- The mutable state threaded through `generate_plan`'s fixed-point loop. -/
structure PlanState where
  steps : List (Address × SpecNode)
  skip : List Address
  results : List (Address × Value)
  actions : List Action
  unresolvable : List Address
deriving Repr

/-- `[Address.from_string(step_addr.base, address) for address in
step.after]`: parses every `after` entry relative to the node's base
(`Address.from_string` raises `ValueError` on malformed input, folded here
into the exception monad). -/
def parseAfter (base : String) (after : List String) :
    Except PyErr (List Address) :=
  after.mapM (fun s =>
    match Address.fromString base s with
    | some a => pure a
    | none => throw (.valueError s!"invalid address format"))

/-- The body of `generate_plan`'s `for` loop for one entry of the sorted
snapshot: skip nodes in `skip_addresses`; try to resolve the node's
dependency shape (an `UnresolvableAddress` records the missing leaf and, if
that leaf is itself skipped, skips and drops the node; any other exception
propagates); check that every `after` target is already in `results`; on
success emit the `PLANNED` action, drop the node from the pending dict and
record a placeholder result. -/
def planVisit (strategy : Strategy) (st : PlanState)
    (entry : Address × SpecNode) : Except PyErr PlanState := do
  let (stepAddr, node) := entry
  if acontains st.skip stepAddr then
    pure st
  else
    let depAddresses := strategy.dependencies stepAddr
    match resolveDeps depAddresses st.results with
    | .error (.unresolvable a) =>
      let st := { st with unresolvable := st.unresolvable ++ [a] }
      if acontains st.skip a then
        pure { st with skip := st.skip ++ [stepAddr], steps := aerase st.steps stepAddr }
      else
        pure st
    | .error e => throw e
    | .ok _ => do
      let after ← parseAfter stepAddr.base node.after
      if after.all (fun a => amem st.results a) then
        pure { st with
          actions := st.actions ++
            [{ type := getActionType node, address := stepAddr,
               state := .planned, snapshot := .vnone, result := .vnone, error := .vnone }]
          steps := aerase st.steps stepAddr
          results := ainsert st.results stepAddr .placeholder }
      else
        pure st

/-- One full pass of the `for` loop over a sorted snapshot of the pending
dict. -/
def planPass (strategy : Strategy) : List (Address × SpecNode) → PlanState →
    Except PyErr PlanState
  | [], st => pure st
  | entry :: rest, st => do
    planPass strategy rest (← planVisit strategy st entry)

/-- The `while steps:` fixed-point loop of `generate_plan`. At the top of
each iteration, if the sorted pending snapshot equals the previous
iteration's snapshot the pass made no progress and `UnknownAddresses` is
raised with the unresolvable addresses collected by that pass. The fuel
only bounds the number of passes (see `PyErr.outOfFuel`). -/
def planLoop (strategy : Strategy) : Nat → Option (List (Address × SpecNode)) →
    PlanState → Except PyErr (List Action)
  | 0, _, _ => throw .outOfFuel
  | fuel + 1, prevSteps, st =>
    if st.steps.isEmpty then pure st.actions
    else
      let snapshot := sortedSteps st.steps
      if prevSteps = some snapshot then
        throw (.unknownAddresses st.unresolvable)
      else do
        let st' ← planPass strategy snapshot { st with unresolvable := [] }
        planLoop strategy fuel (some snapshot) st'

/-- `generate_plan(strategy, available_artifacts)`: seeds the results map
with a placeholder for every available artifact and with the resource
states, seeds `skip_addresses` with the unavailable artifacts, and runs the
fixed-point loop over the pending steps and checks. The fuel
`2 * steps + 3` covers every terminating run: each pass either removes a
pending node or triggers the no-progress guard on the following pass. -/
def generatePlan (strategy : Strategy) (availableArtifacts : List Address) :
    Except PyErr Plan := do
  let artifacts : List (Address × Value) :=
    availableArtifacts.map (fun a => (a, .placeholder))
  let results := aunion artifacts strategy.resources
  let skip : List Address :=
    (strategy.artifacts.map Prod.fst).filter
      (fun a => !acontains availableArtifacts a)
  let actions ← planLoop strategy (2 * strategy.steps.length + 3) none
    { steps := strategy.steps, skip := skip, results := results,
      actions := [], unresolvable := [] }
  pure { actions := actions }

/-! ## The revision store (`treb/core/state.py`)

`save_revision` serializes `Revision(plan=plan)` with `cattrs.unstructure`
and writes it with `json.dumps` to `revisions/<revision>/state.json`;
`load_revision` reads the file back with `json.loads` and
`cattrs.structure`, returning `None` when the file does not exist. The
embedding keeps the JSON *tree*: `json.dumps` followed by `json.loads` is
the identity on the finite trees produced here, and raises `TypeError` on
a value that is not JSON-serializable (the planner's placeholder objects).
The store is the mapping `revision id → stored tree`; the Git commit and
optional push that follow the write do not affect the stored content. -/

mutual

/-- Whether a value is JSON-serializable (`json.dumps` succeeds): trees of
`None`, booleans, numbers, strings, lists and string-keyed dicts.
`_RESULT_PLACEHOLDER` and `_DUMMY` are plain objects and are not. -/
def Value.serializable : Value → Bool
  | .vnone | .vbool _ | .vint _ | .vstr _ => true
  | .vlist xs => serializableList xs
  | .vobj fields => serializableObj fields
  | .placeholder | .dummy => false

def serializableList : List Value → Bool
  | [] => true
  | v :: rest => v.serializable && serializableList rest

def serializableObj : List (String × Value) → Bool
  | [] => true
  | (_, v) :: rest => v.serializable && serializableObj rest

end

/-- `cattrs.unstructure` of an `ActionState` member: its value string. -/
def encodeState : ActionState → Value
  | .planned => .vstr "PLANNED"
  | .inProgress => .vstr "IN_PROGRESS"
  | .failed => .vstr "FAILED"
  | .done => .vstr "DONE"
  | .cancelled => .vstr "CANCELLED"

/-- `cattrs.structure` of an `ActionState`: matches the value string. -/
def decodeState : Value → Option ActionState
  | .vstr "PLANNED" => some .planned
  | .vstr "IN_PROGRESS" => some .inProgress
  | .vstr "FAILED" => some .failed
  | .vstr "DONE" => some .done
  | .vstr "CANCELLED" => some .cancelled
  | _ => none

/-- `cattrs.unstructure` of an `ActionType` member. -/
def encodeType : ActionType → Value
  | .check => .vstr "CHECK"
  | .run => .vstr "RUN"
  | .rollback => .vstr "ROLLBACK"

/-- `cattrs.structure` of an `ActionType`. -/
def decodeType : Value → Option ActionType
  | .vstr "CHECK" => some .check
  | .vstr "RUN" => some .run
  | .vstr "ROLLBACK" => some .rollback
  | _ => none

/-- `cattrs.unstructure` of an `Address` (an attrs class): the dict of its
fields. -/
def encodeAddress (a : Address) : Value :=
  .vobj [("base", .vstr a.base), ("name", .vstr a.name),
         ("attr", match a.attr with | none => .vnone | some s => .vstr s)]

/-- `cattrs.structure` of an `Address`: reads the three fields back. -/
def decodeAddress (v : Value) : Option Address :=
  match v with
  | .vobj fields => do
    let base ← match fields.lookup "base" with | some (.vstr s) => some s | _ => none
    let name ← match fields.lookup "name" with | some (.vstr s) => some s | _ => none
    let attr ← match fields.lookup "attr" with
      | some .vnone => some none
      | some (.vstr s) => some (some s)
      | _ => none
    pure { base := base, name := name, attr := attr }
  | _ => none

/-- `cattrs.structure` of a payload against its declared type
`Optional[Dict[str, Any]]`: `None` passes, a string-keyed dict passes with
its `Any` values verbatim, and any other top-level value raises (the dict
structurer iterates the value's `.items()`). -/
def decodePayload : Value → Option Value
  | .vnone => some .vnone
  | .vobj fields => some (.vobj fields)
  | _ => none

/-- Whether a payload conforms to the declared `Optional[Dict[str, Any]]`
shape, i.e. survives `cattrs.structure` on load. -/
def payloadStructurable : Value → Bool
  | .vnone => true
  | .vobj _ => true
  | _ => false

/-- Whether every payload of every action conforms to the declared
`Optional[Dict[str, Any]]` field types. -/
def Plan.wellTyped (p : Plan) : Bool :=
  p.actions.all (fun a => payloadStructurable a.snapshot &&
    payloadStructurable a.result && payloadStructurable a.error)

/-- `cattrs.unstructure` of an `Action`: the dict of its fields. The
`snapshot`, `result` and `error` payloads are already plain data and pass
through unchanged. -/
def encodeAction (a : Action) : Value :=
  .vobj [("type", encodeType a.type), ("address", encodeAddress a.address),
         ("state", encodeState a.state), ("snapshot", a.snapshot),
         ("result", a.result), ("error", a.error)]

/-- `cattrs.structure` of an `Action`: reads the fields back; each payload
is structured against its declared type `Optional[Dict[str, Any]]`
(`decodePayload`), so a top-level non-dict payload makes structuring
raise. -/
def decodeAction (v : Value) : Option Action :=
  match v with
  | .vobj fields => do
    let type ← decodeType (← fields.lookup "type")
    let address ← decodeAddress (← fields.lookup "address")
    let state ← decodeState (← fields.lookup "state")
    let snapshot ← decodePayload (← fields.lookup "snapshot")
    let result ← decodePayload (← fields.lookup "result")
    let error ← decodePayload (← fields.lookup "error")
    pure { type := type, address := address, state := state,
           snapshot := snapshot, result := result, error := error }
  | _ => none

/-- Whether every payload of every action of the plan is
JSON-serializable. -/
def Plan.serializable (p : Plan) : Bool :=
  p.actions.all (fun a =>
    a.snapshot.serializable && a.result.serializable && a.error.serializable)

/-- `Revision`: the persisted record, holding the plan. -/
structure Revision where
  plan : Plan
deriving Repr

/-- `cattrs.unstructure` of `Revision(plan=plan)`. -/
def encodeRevision (r : Revision) : Value :=
  .vobj [("plan", .vobj [("actions", .vlist (r.plan.actions.map encodeAction))])]

/-- `cattrs.structure` of a `List[Action]`: element-wise. -/
def decodeActionList : List Value → Option (List Action)
  | [] => some []
  | v :: rest => do pure ((← decodeAction v) :: (← decodeActionList rest))

/-- `cattrs.structure` of a `Revision`. -/
def decodeRevision (v : Value) : Option Revision :=
  match v with
  | .vobj fields =>
    match fields.lookup "plan" with
    | some (.vobj planFields) =>
      match planFields.lookup "actions" with
      | some (.vlist actionVals) => do
        let actions ← decodeActionList actionVals
        pure { plan := { actions := actions } }
      | _ => none
    | _ => none
  | _ => none

/-- The on-disk state, as the revision store sees it: one stored JSON tree
per revision id. -/
def Store := List (String × Value)

/-- `save_revision(ctx, plan)`: serialize `Revision(plan=plan)` and write
it to the revision's `state.json` (modelled as the entry for the revision
id); `json.dumps` raises `TypeError` when a payload is not serializable.
The subsequent `git.commit` (and optional `git.push`) do not change the
stored content. -/
def saveRevision (revisionId : String) (plan : Plan) (store : Store) :
    Except PyErr Store :=
  let encoded := encodeRevision { plan := plan }
  if plan.serializable then
    .ok ((revisionId, encoded) ::
      (List.filter (fun e => e.1 != revisionId) store))
  else
    .error (.typeError "not JSON serializable")

/-- `load_revision(ctx)`: read the revision's `state.json` and structure it
back; a missing file (`FileNotFoundError`) yields `None`. A malformed file
fails structuring (`none` from the decoder is a raised cattrs error; it
cannot occur for files written by `saveRevision`). -/
def loadRevision (revisionId : String) (store : Store) : Option (Option Revision) :=
  match (List.find? (fun e => e.1 == revisionId) store) with
  | none => some none
  | some (_, v) =>
    match decodeRevision v with
    | some r => some (some r)
    | none => none

/-! ## Dependency-edge extraction (`extract_addresses` in
`treb/core/strategy.py`)

`extract_addresses` inspects the *declared static type* of a spec field
(via `typing.get_origin` / `get_args`) and its runtime value. `PyType`
models the declared types that occur: the addressable spec classes, plain
classes, PEP 604 unions (`X | Y`, whose origin is the class
`types.UnionType`), `typing.Union` / `typing.Optional` (whose origin is
the `typing.Union` special form — not a class, so `istype(origin,
types.UnionType)` is `False` for it), and the generic aliases `Dict`,
`List` and `Set`. -/

/-- The declared type of a spec field. -/
inductive PyType where
  | artifactTy | resourceTy | stepTy | checkTy  -- spec classes
  | strTy | intTy                               -- plain classes
  | pipeUnion : List PyType → PyType            -- PEP 604 `X | Y`
  | typingUnion : List PyType → PyType          -- `typing.Union[...]` / `Optional`
  | dictTy : PyType → PyType → PyType           -- `Dict[K, V]`
  | listTy : PyType → PyType                    -- `List[E]` / `Sequence[E]`
  | setTy : PyType → PyType                     -- `Set[E]`
deriving Repr

/-- The runtime value of a spec field. -/
inductive PyVal where
  | pstr : String → PyVal
  | paddr : Address → PyVal
  | pint : Int → PyVal
  | pnone : PyVal
  | pdict : List (String × PyVal) → PyVal
  | plist : List PyVal → PyVal
deriving Repr

/-- `typing.get_origin`: the unsubscripted origin of a generic alias
(`None` for a plain class). The origins that occur are the class
`types.UnionType` (for `X | Y`), the `typing.Union` special form, and the
classes `dict`, `list` and `set`. -/
inductive PyOrigin where
  | unionClass | typingUnionForm | dictClass | listClass | setClass
deriving DecidableEq, Repr

def getOrigin : PyType → Option PyOrigin
  | .pipeUnion _ => some .unionClass
  | .typingUnion _ => some .typingUnionForm
  | .dictTy _ _ => some .dictClass
  | .listTy _ => some .listClass
  | .setTy _ => some .setClass
  | _ => none

/-- `is_addressable_type`: `istype(t, (Artifact, ArtifactSpec, Resource,
ResourceSpec, Step))`. `Check` is not in the tuple, and `istype` answers
`False` for anything that is not a class (generic aliases, unions). -/
def isAddressableType : PyType → Bool
  | .artifactTy | .resourceTy | .stepTy => true
  | _ => false

/-- `istype(origin, types.UnionType)`: true only for the class
`types.UnionType`; `issubclass` raises `TypeError` on the `typing.Union`
special form, which `istype` converts to `False`. -/
def originIsUnionType : PyOrigin → Bool
  | .unionClass => true
  | _ => false

/-- `istype(origin, dict)`. -/
def originIsDict : PyOrigin → Bool
  | .dictClass => true
  | _ => false

/-- `make_address(value, base_path)`: a string is parsed with
`Address.from_string` (raising `ValueError` on a malformed address — the
constructed address also runs the name validator); an `Address` passes
through; anything else raises `TypeError`. -/
def makeAddress (v : PyVal) (basePath : String) : Except PyErr Address :=
  match v with
  | .pstr s =>
    match Address.fromString basePath s with
    | some a => .ok a
    | none => .error (.valueError s!"invalid address format")
  | .paddr a => .ok a
  | _ => .error (.typeError "reference to steps or artifacts must be a valid address")

/-- `get_args` of a union type. -/
def unionArgs : PyType → List PyType
  | .pipeUnion args => args
  | .typingUnion args => args
  | _ => []

/-- The dependency shape recorded by `extract_addresses` for one field: an
address, or a dict of per-key recursion results (`None` for a key whose
recursion produced no dependency). -/
inductive Extracted where
  | eaddr : Address → Extracted
  | edict : List (String × Option Extracted) → Extracted
deriving Repr

mutual

/-- `extract_addresses(arg_type, value, base_path)`: if the origin is a
PEP 604 union with an addressable member, coerce the whole value with
`make_address`; if the origin is `dict`, recurse over the value's items
with the declared value type; otherwise fall through: an addressable
plain class coerces via `make_address`, and every other type — including
`List[...]` and `Set[...]`, which match neither the union nor the dict
branch and are not classes — yields `None` (no dependency edge is
recorded). -/
def extractAddresses (argType : PyType) (value : PyVal) (basePath : String) :
    Except PyErr (Option Extracted) := do
  let fallThrough : Except PyErr (Option Extracted) :=
    if isAddressableType argType then do
      pure (some (.eaddr (← makeAddress value basePath)))
    else
      pure none
  match getOrigin argType with
  | some origin =>
    if originIsUnionType origin && (unionArgs argType).any isAddressableType then do
      pure (some (.eaddr (← makeAddress value basePath)))
    else if originIsDict origin then
      match argType, value with
      | .dictTy _ valueType, .pdict items => do
        pure (some (.edict (← extractAddressesItems valueType items basePath)))
      | _, _ =>
        -- `value.items()` on a non-dict value raises `AttributeError`
        throw .attributeError
    else
      fallThrough
  | none => fallThrough

def extractAddressesItems (valueType : PyType) (items : List (String × PyVal))
    (basePath : String) : Except PyErr (List (String × Option Extracted)) :=
  match items with
  | [] => pure []
  | (k, v) :: rest => do
    let e ← extractAddresses valueType v basePath
    let es ← extractAddressesItems valueType rest basePath
    pure ((k, e) :: es)

end

/-! ## The rollback cascade as the specification words it

For comparison with `cascadeActions` (which is translated from the
source), the following definition follows the specification's words for
the cascade: the prefix `actions[0..=idx]`, then a CANCELLED copy of every
*still-PLANNED* action after `idx`, then one PLANNED ROLLBACK (with the
preserved snapshot) for every *DONE RUN* action of the prefix in reverse
order. -/
def specCascadeActions (actions : List Action) (idx : Nat) : List Action :=
  let pfx := actions.take (idx + 1)
  let cancelled := ((actions.drop (idx + 1)).filter
    (fun a => a.state = .planned)).map (fun a => { a with state := .cancelled })
  let rollbacks := (pfx.reverse.filter
    (fun a => a.type = .run && a.state = .done)).map
    (fun a => { type := .rollback, address := a.address, state := .planned,
                snapshot := a.snapshot, result := .vnone, error := .vnone : Action })
  pfx ++ cancelled ++ rollbacks

/-! ## Concrete fixtures used by the individual claims -/

/-- A hook-outcome table that always returns `None`. -/
def quietHooks : Address → Outcome := fun _ => .ok .vnone

def addrS : Address := { base := "r", name := "s" }
def addrC : Address := { base := "r", name := "c" }
def addrB : Address := { base := "r", name := "b" }

/-- A strategy with a single step `//r:s` whose `run` hook raises a generic
exception (not a `FailedCheck`). -/
def strategyRunRaises : Strategy where
  steps := [(addrS, .step [])]
  artifacts := []
  resources := []
  deps := []
  snapshotOf := quietHooks
  runOf := fun _ => .raised (.vstr "boom")
  rollbackOf := quietHooks
  checkOf := quietHooks

/-- A plan with the single planned RUN of `//r:s`. -/
def planSingleRun : Plan := { actions := [{ type := .run, address := addrS }] }

/-- A strategy with step `//r:s` (non-trivial snapshot) and a failing
check `//r:c`. -/
def strategySnapshotAndFailingCheck : Strategy where
  steps := [(addrS, .step []), (addrC, .check [])]
  artifacts := []
  resources := []
  deps := []
  snapshotOf := fun _ => .ok (.vobj [("pre", .vstr "x")])
  runOf := fun _ => .ok (.vstr "ran")
  rollbackOf := quietHooks
  checkOf := fun _ => .failedCheck (.vobj [("passed", .vbool false)])

/-- The plan `RUN //r:s; CHECK //r:c`, both planned. -/
def planRunThenCheck : Plan :=
  { actions := [{ type := .run, address := addrS },
                { type := .check, address := addrC }] }

/-- A serializable plan whose RUN action carries a top-level non-dict
result payload — the string `"ran"` — exactly what the executor records
for a step whose `run` hook returns a string. -/
def planNonDictResult : Plan :=
  { actions := [{ type := .run, address := addrS, state := .done,
                  result := .vstr "ran" }] }

/-- A strategy with a single step `//r:s` whose `rollback` hook raises
`FailedCheck`. -/
def strategyRollbackFails : Strategy where
  steps := [(addrS, .step [])]
  artifacts := []
  resources := []
  deps := []
  snapshotOf := quietHooks
  runOf := quietHooks
  rollbackOf := fun _ => .failedCheck (.vstr "rbfail")
  checkOf := quietHooks

/-- A resumed plan: the RUN of `//r:s` already DONE with a `None` snapshot
(its snapshot hook is annotated `-> None`), its ROLLBACK already
IN_PROGRESS, also with a `None` snapshot — so the rollback's snapshot
decode succeeds and the rollback hook runs. -/
def planRollbackInProgress : Plan :=
  { actions := [{ type := .run, address := addrS, state := .done,
                  result := .vstr "res" },
                { type := .rollback, address := addrS, state := .inProgress }] }

/-- A strategy with a failing check `//r:c` and no other registered node. -/
def strategyFailingCheckOnly : Strategy where
  steps := [(addrC, .check [])]
  artifacts := []
  resources := []
  deps := []
  snapshotOf := quietHooks
  runOf := quietHooks
  rollbackOf := quietHooks
  checkOf := fun _ => .failedCheck (.vobj [("passed", .vbool false)])

/-- A resumed plan whose tail action (after the failing check) is already
DONE rather than still PLANNED: `CHECK //r:c IN_PROGRESS; RUN //r:b DONE`. -/
def planCheckInProgressThenDoneRun : Plan :=
  { actions := [{ type := .check, address := addrC, state := .inProgress },
                { type := .run, address := addrB, state := .done,
                  result := .vstr "r2" }] }

/-- The plan produced by `_execute_plan_in_progress` on
`planCheckInProgressThenDoneRun` at index 0: the failed check marked DONE
with the check's reported result. -/
def planCheckDoneThenDoneRun : Plan :=
  { actions := [{ type := .check, address := addrC, state := .done,
                  result := .vobj [("passed", .vbool false)] },
                { type := .run, address := addrB, state := .done,
                  result := .vstr "r2" }] }

/-- The plan `execute_plan` yields at the cascade on
`planCheckInProgressThenDoneRun`: the DONE RUN after the failed check is
cancelled as well. -/
def planCascadeYieldWithCancelledDoneRun : Plan :=
  { actions := [{ type := .check, address := addrC, state := .done,
                  result := .vobj [("passed", .vbool false)] },
                { type := .run, address := addrB, state := .cancelled,
                  result := .vstr "r2" }] }

/-- A strategy with steps `//r:s` and `//r:b`, where `//r:b` declares a
dependency on `//r:s`. -/
def strategyStepDependsOnStep : Strategy where
  steps := [(addrS, .step []), (addrB, .step [])]
  artifacts := []
  resources := []
  deps := [(addrB, [("dep", .addr addrS)])]
  snapshotOf := quietHooks
  runOf := quietHooks
  rollbackOf := quietHooks
  checkOf := quietHooks

/-- A resumed plan: the RUN of `//r:s` already DONE with a recorded
result, the dependent RUN of `//r:b` still PLANNED. -/
def planDoneRunThenDependentRun : Plan :=
  { actions := [{ type := .run, address := addrS, state := .done,
                  result := .vstr "recorded" },
                { type := .run, address := addrB }] }

def addrX : Address := { base := "r", name := "x" }
def addrMissing : Address := { base := "r", name := "missing" }

/-- A strategy with a single step `//r:x` whose `artifact` field references
the unregistered address `//r:missing`. -/
def strategyUnknownAddress : Strategy where
  steps := [(addrX, .step [])]
  artifacts := []
  resources := []
  deps := [(addrX, [("artifact", .addr addrMissing)])]
  snapshotOf := quietHooks
  runOf := quietHooks
  rollbackOf := quietHooks
  checkOf := quietHooks

def addrArtifact : Address := { base := "r", name := "artifact" }
def addrStepFoo : Address := { base := "r", name := "step-foo" }
def addrStepBar : Address := { base := "r", name := "step-bar" }
def addrCheck : Address := { base := "r", name := "check" }

/-- The spec's "diamond ordering" scenario: artifact `//r:artifact`, steps
`//r:step-foo` and `//r:step-bar` both depending on the artifact, and a
check `//r:check` with `resource=//r:step-foo` and `after=[//r:step-bar]`. -/
def strategyDiamond : Strategy where
  steps := [(addrStepFoo, .step []), (addrStepBar, .step []),
            (addrCheck, .check ["//r:step-bar"])]
  artifacts := [(addrArtifact, (true, .vobj []))]
  resources := []
  deps := [(addrStepFoo, [("artifact", .addr addrArtifact)]),
           (addrStepBar, [("artifact", .addr addrArtifact)]),
           (addrCheck, [("resource", .addr addrStepFoo)])]
  snapshotOf := quietHooks
  runOf := quietHooks
  rollbackOf := quietHooks
  checkOf := quietHooks

/-- The plan `generate_plan` produces for the diamond scenario:
`RUN step-bar; RUN step-foo; CHECK check`. -/
def planDiamond : Plan :=
  { actions := [{ type := .run, address := addrStepBar },
                { type := .run, address := addrStepFoo },
                { type := .check, address := addrCheck }] }

/-- The initial loop state `generate_plan` builds for
`strategyUnknownAddress` with no available artifacts. -/
def unknownAddressPlanState : PlanState :=
  { steps := strategyUnknownAddress.steps, skip := [], results := [],
    actions := [], unresolvable := [] }

/-- The loop state after one full pass over `strategyUnknownAddress`'s
pending nodes: nothing was emitted and the missing leaf was recorded. -/
def unknownAddressPlanStateAfterPass : PlanState :=
  { steps := strategyUnknownAddress.steps, skip := [], results := [],
    actions := [], unresolvable := [addrMissing] }

/-! ## Dependency leaves and the planner invariant (used by the
topological-order theorem) -/

mutual

/-- The `Address` leaves of a dependency shape: exactly the addresses
`resolve_addresses` looks up. -/
def depLeaves : Dep → List Address
  | .addr a => [a]
  | .dmap es => depLeavesEntries es
  | .dseq xs => depLeavesSeq xs
  | .lit _ => []

def depLeavesEntries : List (String × Dep) → List Address
  | [] => []
  | (_, d) :: rest => depLeaves d ++ depLeavesEntries rest

def depLeavesSeq : List Dep → List Address
  | [] => []
  | d :: rest => depLeaves d ++ depLeavesSeq rest

end

/-- The dependency addresses of a node: the leaves of its recorded
dependency-shape mapping. -/
def Strategy.depAddresses (s : Strategy) (a : Address) : List Address :=
  depLeavesEntries (s.dependencies a)

/-- The invariant maintained by `generate_plan`'s fixed-point loop, over
the initial results map `init` (available-artifact placeholders plus
resources). -/
structure PlanInv (strategy : Strategy) (init : List (Address × Value))
    (st : PlanState) : Prop where
  /-- every pending node is one of the registered nodes -/
  steps_sub : ∀ e ∈ st.steps, e ∈ strategy.steps
  /-- pending keys are duplicate-free under Python address equality -/
  steps_nodup : List.Pairwise (fun e₁ e₂ => addrEq e₁.1 e₂.1 = false) st.steps
  /-- the results keys are the initial keys plus the emitted addresses -/
  results_keys : ∀ a, amem st.results a =
    (amem init a || st.actions.any (fun act => addrEq act.address a))
  /-- every emitted action's address is a registered node key -/
  actions_sub : ∀ act ∈ st.actions, ∃ e ∈ strategy.steps, addrEq e.1 act.address = true
  /-- an emitted address is no longer pending -/
  actions_not_pending : ∀ act ∈ st.actions, ∀ e ∈ st.steps,
    addrEq e.1 act.address = false
  /-- emitted addresses are pairwise distinct -/
  actions_nodup :
    List.Pairwise (fun a₁ a₂ => addrEq a₁.address a₂.address = false) st.actions
  /-- every dependency leaf of an emitted action was available before it:
  in the initial results or among the earlier actions' addresses -/
  topo : ∀ i (hi : i < st.actions.length),
    ∀ l ∈ strategy.depAddresses ((st.actions.get ⟨i, hi⟩).address),
      amem init l = true ∨
      ∃ j, ∃ (hj : j < i),
        addrEq ((st.actions.get ⟨j, Nat.lt_trans hj hi⟩).address) l = true

/-! ## Theorems -/

/-! ### Toolbox: Python address equality and the dict model -/

theorem addrEq_refl (a : Address) : addrEq a a = true := by
  simp [addrEq]

theorem addrEq_false_of_not {a b : Address} (h : ¬ addrEq a b = true) :
    addrEq a b = false := by
  cases hab : addrEq a b
  · rfl
  · exact absurd hab h

theorem addrEq_symm (a b : Address) : addrEq a b = addrEq b a := by
  simp only [addrEq]
  rw [Bool.eq_iff_iff, Bool.and_eq_true, Bool.and_eq_true,
    beq_iff_eq, beq_iff_eq, beq_iff_eq, beq_iff_eq]
  constructor
  · rintro ⟨h1, h2⟩
    exact ⟨h1.symm, h2.symm⟩
  · rintro ⟨h1, h2⟩
    exact ⟨h1.symm, h2.symm⟩

theorem addrEq_trans {a b c : Address} (h₁ : addrEq a b = true)
    (h₂ : addrEq b c = true) : addrEq a c = true := by
  simp [addrEq] at h₁ h₂ ⊢
  exact ⟨h₁.1.trans h₂.1, h₁.2.trans h₂.2⟩

theorem alookup_congr {α : Type} (m : List (Address × α)) {a b : Address}
    (h : addrEq a b = true) : alookup m a = alookup m b := by
  induction m with
  | nil => rfl
  | cons e rest ih =>
    by_cases hk : addrEq e.1 a = true
    · have hk' : addrEq e.1 b = true := addrEq_trans hk h
      simp [alookup, hk, hk']
    · have hk' : addrEq e.1 b = false := addrEq_false_of_not (by
        intro hc
        exact hk (addrEq_trans hc ((addrEq_symm a b).symm ▸ h)))
      simp [alookup, addrEq_false_of_not hk, hk', ih]

theorem amem_congr {α : Type} (m : List (Address × α)) {a b : Address}
    (h : addrEq a b = true) : amem m a = amem m b := by
  simp [amem, alookup_congr m h]

theorem amem_ainsert {α : Type} (m : List (Address × α)) (k : Address) (v : α)
    (a : Address) : amem (ainsert m k v) a = (amem m a || addrEq k a) := by
  induction m with
  | nil =>
    simp only [ainsert, amem, alookup]
    cases addrEq k a <;> simp
  | cons e rest ih =>
    by_cases hk : addrEq e.1 k = true
    · simp only [ainsert, hk, if_true]
      by_cases ha : addrEq e.1 a = true
      · have : addrEq k a = true :=
          addrEq_trans ((addrEq_symm e.1 k) ▸ hk) ha
        simp [amem, alookup, ha, this]
      · have : addrEq k a = false := addrEq_false_of_not (by
          intro hc
          exact ha (addrEq_trans hk hc))
        simp [amem, alookup, addrEq_false_of_not ha, this]
    · simp only [ainsert, addrEq_false_of_not hk, Bool.false_eq_true, if_false]
      by_cases ha : addrEq e.1 a = true
      · simp [amem, alookup, ha]
      · simp only [amem, alookup, addrEq_false_of_not ha, Bool.false_eq_true,
          if_false]
        exact ih

theorem amem_aunion {α : Type} (b a : List (Address × α)) (k : Address) :
    amem (aunion a b) k = (amem a k || amem b k) := by
  induction b generalizing a with
  | nil => simp [aunion, amem, alookup]
  | cons e rest ih =>
    show amem (aunion (ainsert a e.1 e.2) rest) k = _
    rw [ih, amem_ainsert]
    cases h : addrEq e.1 k
    · simp [amem, alookup, h]
    · simp [amem, alookup, h]

theorem amem_placeholders (xs : List Address) (k : Address) :
    amem (xs.map (fun x => (x, Value.placeholder))) k = acontains xs k := by
  induction xs with
  | nil => rfl
  | cons x rest ih =>
    cases h : addrEq x k
    · simpa [amem, alookup, acontains, h] using ih
    · simp [amem, alookup, acontains, h]

/-! ### Resolution success implies every leaf is present -/

mutual

theorem resolveDep_ok_mem : ∀ (results : List (Address × Value)) (d : Dep) (v : Value),
    resolveDep results d = .ok v → ∀ l ∈ depLeaves d, amem results l = true
  | results, .addr a, v, h, l, hl => by
    simp only [depLeaves, List.mem_singleton] at hl
    rw [hl]
    simp only [resolveDep] at h
    cases hal : alookup results a with
    | none => rw [hal] at h; exact absurd h (by simp)
    | some w => simp [amem, hal]
  | results, .dmap es, v, h, l, hl => by
    simp only [resolveDep] at h
    simp only [depLeaves] at hl
    cases he : resolveDepEntries results es with
    | error e => rw [he] at h; exact absurd h (by simp [Bind.bind, Except.bind])
    | ok vs => exact resolveDepEntries_ok_mem results es vs he l hl
  | results, .dseq xs, v, h, l, hl => by
    simp only [resolveDep] at h
    simp only [depLeaves] at hl
    cases he : resolveDepList results xs with
    | error e => rw [he] at h; exact absurd h (by simp [Bind.bind, Except.bind])
    | ok vs => exact resolveDepList_ok_mem results xs vs he l hl
  | results, .lit w, v, h, l, hl => by
    simp [depLeaves] at hl

theorem resolveDepEntries_ok_mem : ∀ (results : List (Address × Value))
    (es : List (String × Dep)) (vs : List (String × Value)),
    resolveDepEntries results es = .ok vs →
    ∀ l ∈ depLeavesEntries es, amem results l = true
  | results, [], vs, h, l, hl => by simp [depLeavesEntries] at hl
  | results, (s, d) :: rest, vs, h, l, hl => by
    simp only [resolveDepEntries] at h
    simp only [depLeavesEntries, List.mem_append] at hl
    cases hd : resolveDep results d with
    | error e => rw [hd] at h; exact absurd h (by simp [Bind.bind, Except.bind])
    | ok v =>
      cases hr : resolveDepEntries results rest with
      | error e =>
        rw [hd, hr] at h
        exact absurd h (by simp [Bind.bind, Except.bind])
      | ok vrest =>
        rcases hl with hl | hl
        · exact resolveDep_ok_mem results d v hd l hl
        · exact resolveDepEntries_ok_mem results rest vrest hr l hl

theorem resolveDepList_ok_mem : ∀ (results : List (Address × Value))
    (xs : List Dep) (vs : List Value),
    resolveDepList results xs = .ok vs →
    ∀ l ∈ depLeavesSeq xs, amem results l = true
  | results, [], vs, h, l, hl => by simp [depLeavesSeq] at hl
  | results, d :: rest, vs, h, l, hl => by
    simp only [resolveDepList] at h
    simp only [depLeavesSeq, List.mem_append] at hl
    cases hd : resolveDep results d with
    | error e => rw [hd] at h; exact absurd h (by simp [Bind.bind, Except.bind])
    | ok v =>
      cases hr : resolveDepList results rest with
      | error e =>
        rw [hd, hr] at h
        exact absurd h (by simp [Bind.bind, Except.bind])
      | ok vrest =>
        rcases hl with hl | hl
        · exact resolveDep_ok_mem results d v hd l hl
        · exact resolveDepList_ok_mem results rest vrest hr l hl

end

theorem resolveDeps_ok_mem (deps : List (String × Dep))
    (results : List (Address × Value)) (vs : List (String × Value))
    (h : resolveDeps deps results = .ok vs) :
    ∀ l ∈ depLeavesEntries deps, amem results l = true :=
  resolveDepEntries_ok_mem results deps vs h

/-- C10: `is_valid_name` does not coincide with the grammar
`[A-Za-z][A-Za-z0-9-]*` claimed by the specification (and by the
function's own docstring): the Python built-ins `isalpha`/`isalnum` follow
Unicode, so the name `"é"` is accepted by the code although it matches no
ASCII-only grammar. The empty string is rejected by both. -/
theorem is_valid_name_accepts_non_ascii :
    isValidName "é" = true ∧ specNameGrammar "é" = false ∧
    isValidName "" = false ∧ specNameGrammar "" = false := by
  decide

/-- C9: `extract_addresses` has no branch for sequence or set types: a
field declared `List[...]` or `Set[...]` matches neither the union branch
nor the dict branch, and the generic alias itself is not an addressable
class, so the function returns `None` and no dependency edge is recorded —
in particular on the input of the repository's own test
`test_extract_addresses__transform_addresses_in_list`
(`List[ArtifactSpec]` with value `["//foo:bar", ":bar"]` and base
`"root"`), which expects element-wise recursion. -/
theorem extract_addresses_ignores_sequences :
    (∀ (t : PyType) (v : PyVal) (b : String),
      extractAddresses (.listTy t) v b = .ok none) ∧
    (∀ (t : PyType) (v : PyVal) (b : String),
      extractAddresses (.setTy t) v b = .ok none) ∧
    extractAddresses (.listTy .artifactTy)
      (.plist [.pstr "//foo:bar", .pstr ":bar"]) "root" = .ok none := by
  refine ⟨fun t v b => ?_, fun t v b => ?_, rfl⟩ <;>
    simp [extractAddresses, getOrigin, originIsUnionType, originIsDict,
      isAddressableType, pure, Except.pure]

/-- C3: a RUN hook raising an exception other than `FailedCheck` is not
caught by the executor: the exception propagates out of `execute_plan`,
the action is left `IN_PROGRESS` (never marked `FAILED`, no error payload
is stored) and no rollback cascade happens — the run of
`strategyRunRaises` on `planSingleRun` yields exactly one plan (the
`PLANNED → IN_PROGRESS` transition) and then raises. -/
theorem run_error_propagates_uncaught :
    executePlan strategyRunRaises planSingleRun 10 =
      ([{ actions := [{ type := .run, address := addrS,
                        state := .inProgress }] }],
       some (.raisedError (.vstr "boom"))) := by
  rfl

/-- C4: the ROLLBACK actions appended by the rollback cascade do not carry
the preserved snapshot of the completed RUN: the `Action` constructed on
lines 218–226 of `execute.py` omits `snapshot`, which therefore defaults
to `None`. In general, the appended tail of `cascadeActions` consists of
rollback actions built with only `type`, `address` and `state` (so
`snapshot = None`); concretely, the cascade yield for
`strategySnapshotAndFailingCheck` contains the DONE RUN with its stored
snapshot `{"pre": "x"}` but an appended ROLLBACK with `snapshot = None`. -/
theorem cascade_rollbacks_lose_snapshot :
    (∀ (actions : List Action) (idx : Nat),
      (cascadeActions actions idx).drop actions.length =
        ((actions.take (idx + 1)).reverse.filter (fun a => a.type = .run)).map
          (fun a => { type := .rollback, address := a.address,
                      state := .planned : Action })) ∧
    (executePlan strategySnapshotAndFailingCheck planRunThenCheck 20).1[3]? =
      some { actions :=
        [{ type := .run, address := addrS, state := .done,
           snapshot := .vobj [("pre", .vstr "x")], result := .vstr "ran" },
         { type := .check, address := addrC, state := .done,
           result := .vobj [("passed", .vbool false)] },
         { type := .rollback, address := addrS, state := .planned }] } := by
  constructor
  · intro actions idx
    simp only [cascadeActions]
    have hlen : (actions.take (idx + 1) ++
        (actions.drop (idx + 1)).map
          (fun (a : Action) => { a with state := ActionState.cancelled })).length =
        actions.length := by
      simp [List.length_take, List.length_drop]
      omega
    rw [← hlen, List.drop_left]
  · rfl

/-- C5: the rollback cascade is *not* restricted to failures of non-ROLLBACK
actions. Line 161 of `execute.py` computes `start_rollback` as
`action.state is not ActionType.ROLLBACK` — an identity comparison between
members of two distinct enums, which is always true — so a `FailedCheck`
raised while performing a ROLLBACK action also triggers the cascade. On
`planRollbackInProgress` (a `None` snapshot, so the swapped-argument
snapshot decode of `_perform_rollback` passes and the hook runs),
`_execute_plan_in_progress` reports `start_rollback = True` for the
failing ROLLBACK at index 1, and the yielded plan has its tail replaced
and a fresh ROLLBACK appended. -/
theorem rollback_failure_triggers_cascade :
    executePlanInProgress strategyRollbackFails planRollbackInProgress 1
        (initResults strategyRollbackFails) =
      .ok ({ actions :=
        [{ type := .run, address := addrS, state := .done,
           result := .vstr "res" },
         { type := .rollback, address := addrS, state := .done,
           result := .vstr "rbfail" }] }, true) ∧
    (executePlan strategyRollbackFails planRollbackInProgress 2).1 =
      [{ actions :=
        [{ type := .run, address := addrS, state := .done,
           result := .vstr "res" },
         { type := .rollback, address := addrS, state := .done,
           result := .vstr "rbfail" },
         { type := .rollback, address := addrS, state := .planned }] }] := by
  exact ⟨rfl, rfl⟩

/-- C7: an action already in a terminal state is skipped without touching
the results map — `execute_plan` only advances the cursor, recording
nothing. Consequently, on a resumed plan whose DONE RUN of `//r:s` is
followed by the still-planned RUN of `//r:b` (which depends on `//r:s`),
the recorded result of `//r:s` is never placed in the results map, and
resolving `//r:b`'s dependencies raises `UnresolvableAddress(//r:s)`
instead of resuming: the whole run yields nothing and errors. -/
theorem terminal_skip_loses_results (strategy : Strategy) (plan : Plan)
    (results : List (Address × Value)) (idx : Nat)
    (hlt : idx < plan.actions.length)
    (hterm : (plan.actions[idx]!).state = .done ∨
      (plan.actions[idx]!).state = .failed ∨
      (plan.actions[idx]!).state = .cancelled) :
    execIter strategy plan results idx = .next [] plan results (idx + 1) ∧
    executePlan strategyStepDependsOnStep planDoneRunThenDependentRun 10 =
      ([], some (.unresolvable addrS)) := by
  have hge : ¬ idx ≥ plan.actions.length := by omega
  refine ⟨?_, rfl⟩
  rcases hterm with h | h | h <;> simp [execIter, hge, h]

/-- Witness for `terminal_skip_loses_results`: the DONE RUN at index 0 of
`planDoneRunThenDependentRun` is skipped without a results-map update. -/
theorem terminal_skip_loses_results_witness :
    execIter strategyStepDependsOnStep planDoneRunThenDependentRun [] 0 =
      .next [] planDoneRunThenDependentRun [] 1 ∧
    executePlan strategyStepDependsOnStep planDoneRunThenDependentRun 10 =
      ([], some (.unresolvable addrS)) :=
  terminal_skip_loses_results strategyStepDependsOnStep
    planDoneRunThenDependentRun [] 0 (by decide) (Or.inl (by decide))

/-- C1, counterexample: on the resumed plan
`planCheckInProgressThenDoneRun` the check at index 0 fails and triggers
the cascade, but the resulting plan is *not* of the claimed shape (prefix,
then CANCELLED copies of the still-PLANNED tail actions, then one ROLLBACK
per DONE RUN of the prefix): the DONE RUN at index 1 is not still-PLANNED,
yet the code emits a CANCELLED copy of it, so the yielded plan has two
actions where the claimed shape has one. -/
theorem cascade_claim_counterexample :
    executePlanInProgress strategyFailingCheckOnly planCheckInProgressThenDoneRun 0
        (initResults strategyFailingCheckOnly) =
      .ok (planCheckDoneThenDoneRun, true) ∧
    (executePlan strategyFailingCheckOnly planCheckInProgressThenDoneRun 5) =
      ([planCascadeYieldWithCancelledDoneRun], none) ∧
    planCascadeYieldWithCancelledDoneRun ≠
      Plan.mk (specCascadeActions planCheckDoneThenDoneRun.actions 0) := by
  refine ⟨rfl, rfl, fun h => ?_⟩
  exact absurd (congrArg (fun p => p.actions.length) h) (by decide)

/-- C1, amended: when the action at index `idx` fails and triggers the
rollback cascade, the plan `execute_plan` yields is exactly the prefix
`actions[0..=idx]` (with the failed action marked), followed by a CANCELLED
copy of *every* action at index > idx regardless of its prior state,
followed by new PLANNED ROLLBACK actions, exactly one for each RUN-*type*
action at indices ≤ idx regardless of its state, in reverse index order
(and none for CHECK or ROLLBACK actions); the results map is extended with
the failed action's recorded result and the cursor advances. -/
theorem cascade_structure (strategy : Strategy) (plan p1 : Plan)
    (results : List (Address × Value)) (idx : Nat)
    (hlt : idx < plan.actions.length)
    (hstate : (plan.actions[idx]!).state = .inProgress)
    (hexec : executePlanInProgress strategy plan idx results = .ok (p1, true)) :
    execIter strategy plan results idx =
      .next
        [Plan.mk (p1.actions.take (idx + 1)
          ++ (p1.actions.drop (idx + 1)).map
            (fun (a : Action) => { a with state := .cancelled })
          ++ ((p1.actions.take (idx + 1)).reverse.filter
              (fun a => a.type = .run)).map
            (fun a => { type := .rollback, address := a.address,
                        state := .planned : Action }))]
        (Plan.mk (p1.actions.take (idx + 1)
          ++ (p1.actions.drop (idx + 1)).map
            (fun (a : Action) => { a with state := .cancelled })
          ++ ((p1.actions.take (idx + 1)).reverse.filter
              (fun a => a.type = .run)).map
            (fun a => { type := .rollback, address := a.address,
                        state := .planned : Action })))
        (ainsert results ((plan.actions[idx]!).address) ((p1.actions[idx]!).result))
        (idx + 1) := by
  have hge : ¬ idx ≥ plan.actions.length := by omega
  simp [execIter, hge, hstate, hexec, cascadeActions]

/-- Witness for `cascade_structure`, at the concrete failing-check run of
`strategyFailingCheckOnly` on `planCheckInProgressThenDoneRun`. -/
theorem cascade_structure_witness :
    execIter strategyFailingCheckOnly planCheckInProgressThenDoneRun
        (initResults strategyFailingCheckOnly) 0 =
      .next
        [Plan.mk (planCheckDoneThenDoneRun.actions.take 1
          ++ (planCheckDoneThenDoneRun.actions.drop 1).map
            (fun (a : Action) => { a with state := .cancelled })
          ++ ((planCheckDoneThenDoneRun.actions.take 1).reverse.filter
              (fun a => a.type = .run)).map
            (fun a => { type := .rollback, address := a.address,
                        state := .planned : Action }))]
        (Plan.mk (planCheckDoneThenDoneRun.actions.take 1
          ++ (planCheckDoneThenDoneRun.actions.drop 1).map
            (fun (a : Action) => { a with state := .cancelled })
          ++ ((planCheckDoneThenDoneRun.actions.take 1).reverse.filter
              (fun a => a.type = .run)).map
            (fun a => { type := .rollback, address := a.address,
                        state := .planned : Action })))
        (ainsert (initResults strategyFailingCheckOnly)
          ((planCheckInProgressThenDoneRun.actions[0]!).address)
          ((planCheckDoneThenDoneRun.actions[0]!).result))
        1 :=
  cascade_structure strategyFailingCheckOnly planCheckInProgressThenDoneRun
    planCheckDoneThenDoneRun (initResults strategyFailingCheckOnly) 0
    (by decide) (by decide) (by rfl)

/-- C6: when a full pass of the fixed-point loop makes no progress (the
pending dict is unchanged after iterating all of its nodes), the next loop
iteration raises `UnknownAddresses` carrying exactly the unresolvable leaf
addresses collected during that pass; in particular, for the strategy whose
only step `//r:x` has a field referencing the unregistered address
`//r:missing`, `generate_plan` raises
`UnknownAddresses(addresses=[//r:missing])`. -/
theorem plan_no_progress_raises_unknown (strategy : Strategy) (fuel : Nat)
    (prev : Option (List (Address × SpecNode))) (st st' : PlanState)
    (hne : st.steps ≠ [])
    (hprev : prev ≠ some (sortedSteps st.steps))
    (hpass : planPass strategy (sortedSteps st.steps)
      { st with unresolvable := [] } = .ok st')
    (hsteps : st'.steps = st.steps) :
    planLoop strategy (fuel + 2) prev st =
      .error (.unknownAddresses st'.unresolvable) ∧
    generatePlan strategyUnknownAddress [] =
      .error (.unknownAddresses [addrMissing]) := by
  refine ⟨?_, rfl⟩
  have h1 : st.steps.isEmpty = false := by
    simpa [List.isEmpty_iff] using hne
  have h2 : st'.steps.isEmpty = false := by rw [hsteps]; exact h1
  show planLoop strategy (fuel + 1 + 1) prev st = _
  rw [planLoop.eq_def]
  simp only [h1, Bool.false_eq_true, if_false, if_neg hprev, hpass,
    Bind.bind, Except.bind]
  rw [planLoop.eq_def]
  simp only [h2, Bool.false_eq_true, if_false, hsteps, if_pos rfl]
  simp [h1, throw, throwThe, MonadExceptOf.throw]

/-- Witness for `plan_no_progress_raises_unknown`: the no-progress pass of
`strategyUnknownAddress` collects `//r:missing` and the next iteration
raises. -/
theorem plan_no_progress_raises_unknown_witness :
    planLoop strategyUnknownAddress 2 none unknownAddressPlanState =
      .error (.unknownAddresses unknownAddressPlanStateAfterPass.unresolvable) ∧
    generatePlan strategyUnknownAddress [] =
      .error (.unknownAddresses [addrMissing]) :=
  plan_no_progress_raises_unknown strategyUnknownAddress 0 none
    unknownAddressPlanState unknownAddressPlanStateAfterPass
    (by decide) (by decide) (by rfl) (by rfl)

theorem decodeType_encodeType (t : ActionType) :
    decodeType (encodeType t) = some t := by
  cases t <;> rfl

theorem decodeState_encodeState (st : ActionState) :
    decodeState (encodeState st) = some st := by
  cases st <;> rfl

theorem decodeAddress_encodeAddress (a : Address) :
    decodeAddress (encodeAddress a) = some a := by
  obtain ⟨b, n, attr⟩ := a
  cases attr <;> rfl

/-- Structuring a payload that conforms to `Optional[Dict[str, Any]]`
returns it unchanged. -/
theorem decodePayload_structurable (v : Value)
    (h : payloadStructurable v = true) : decodePayload v = some v := by
  cases v <;> first | rfl | simp [payloadStructurable] at h

/-- Structuring an unstructured action recovers the action, provided its
payloads conform to the declared `Optional[Dict[str, Any]]` types. -/
theorem decodeAction_encodeAction (a : Action)
    (h1 : payloadStructurable a.snapshot = true)
    (h2 : payloadStructurable a.result = true)
    (h3 : payloadStructurable a.error = true) :
    decodeAction (encodeAction a) = some a := by
  obtain ⟨t, addr, st, snap, res, err⟩ := a
  simp only at h1 h2 h3
  simp [decodeAction, encodeAction, List.lookup, decodeType_encodeType,
    decodeState_encodeState, decodeAddress_encodeAddress,
    decodePayload_structurable _ h1, decodePayload_structurable _ h2,
    decodePayload_structurable _ h3]

/-- Structuring an unstructured action list recovers the list, payload
conformance assumed element-wise. -/
theorem decodeActions_encodeActions (l : List Action)
    (h : ∀ a ∈ l, payloadStructurable a.snapshot = true ∧
      payloadStructurable a.result = true ∧
      payloadStructurable a.error = true) :
    decodeActionList (l.map encodeAction) = some l := by
  induction l with
  | nil => rfl
  | cons a rest ih =>
    obtain ⟨h1, h2, h3⟩ := h a (by simp)
    simp [decodeActionList, decodeAction_encodeAction a h1 h2 h3,
      ih (fun x hx => h x (by simp [hx]))]

/-- Structuring an unstructured revision recovers the revision when the
plan is well-typed. -/
theorem decodeRevision_encodeRevision (r : Revision)
    (hwt : r.plan.wellTyped = true) :
    decodeRevision (encodeRevision r) = some r := by
  obtain ⟨⟨actions⟩⟩ := r
  simp only [Plan.wellTyped, List.all_eq_true, Bool.and_eq_true] at hwt
  simp [decodeRevision, encodeRevision, List.lookup,
    decodeActions_encodeActions actions
      (fun a ha => ⟨((hwt a ha).1).1, ((hwt a ha).1).2, (hwt a ha).2⟩)]

/-- C8, counterexample: the round trip is *not* the identity on every
serializable plan. `planNonDictResult` is JSON-serializable (its result
payload is the string `"ran"`), so `save_revision` writes it, but
`cattrs.structure` on load raises while structuring the string against
`Optional[Dict[str, Any]]`: `load_revision` after `save_revision` does
not return the saved plan. -/
theorem save_then_load_counterexample :
    planNonDictResult.serializable = true ∧
    saveRevision "abc" planNonDictResult [] =
      .ok [("abc", encodeRevision { plan := planNonDictResult })] ∧
    loadRevision "abc"
      [("abc", encodeRevision { plan := planNonDictResult })] = none ∧
    loadRevision "abc"
      [("abc", encodeRevision { plan := planNonDictResult })] ≠
      some (some { plan := planNonDictResult }) := by
  refine ⟨rfl, rfl, rfl, ?_⟩
  intro h
  rw [show loadRevision "abc"
      [("abc", encodeRevision { plan := planNonDictResult })] =
      none from rfl] at h
  exact Option.noConfusion h

/-- C8, amended: saving a plan and loading it back returns a `Revision`
whose plan is the saved plan, for every plan that is JSON-serializable
*and* whose `snapshot`/`result`/`error` payloads each conform to their
declared type `Optional[Dict[str, Any]]` (are `None` or a string-keyed
dict) — the shape `cattrs.structure` accepts on load. -/
theorem save_then_load_is_identity (revisionId : String) (plan : Plan)
    (store : Store) (hser : plan.serializable = true)
    (hwt : plan.wellTyped = true) :
    ∃ store', saveRevision revisionId plan store = .ok store' ∧
      loadRevision revisionId store' = some (some { plan := plan }) := by
  refine ⟨(revisionId, encodeRevision { plan := plan }) ::
    (List.filter (fun e => e.1 != revisionId) store), ?_, ?_⟩
  · simp [saveRevision, hser]
  · simp [loadRevision, List.find?, decodeRevision_encodeRevision _ hwt]

/-- Witness for `save_then_load_is_identity`: the two-action plan
`planRunThenCheck` (all payloads `None`) round-trips through the store. -/
theorem save_then_load_is_identity_witness :
    ∃ store', saveRevision "abc" planRunThenCheck [] = .ok store' ∧
      loadRevision "abc" store' = some (some { plan := planRunThenCheck }) :=
  save_then_load_is_identity "abc" planRunThenCheck [] (by rfl) (by rfl)

/-! ### The planner invariant is preserved -/

theorem planVisit_inv (strategy : Strategy) (init : List (Address × Value))
    (st st' : PlanState) (entry : Address × SpecNode)
    (hinv : PlanInv strategy init st)
    (hmem : entry ∈ st.steps)
    (hvisit : planVisit strategy st entry = .ok st') :
    PlanInv strategy init st' ∧
    (st'.steps = st.steps ∨ st'.steps = aerase st.steps entry.1) := by
  obtain ⟨stepAddr, node⟩ := entry
  simp only [planVisit] at hvisit
  by_cases h1 : acontains st.skip stepAddr = true
  · rw [if_pos h1] at hvisit
    have hst : st = st' := by simpa [pure, Except.pure] using hvisit
    subst hst
    exact ⟨hinv, Or.inl rfl⟩
  · rw [if_neg h1] at hvisit
    cases hres : resolveDeps (strategy.dependencies stepAddr) st.results with
    | error e =>
      rw [hres] at hvisit
      cases e with
      | unresolvable a =>
        by_cases h2 : acontains st.skip a = true
        · simp only [h2, if_true] at hvisit
          have hst : st' = { st with
              unresolvable := st.unresolvable ++ [a],
              skip := st.skip ++ [stepAddr],
              steps := aerase st.steps stepAddr } := by
            simpa [pure, Except.pure] using hvisit.symm
          subst hst
          refine ⟨⟨?_, ?_, hinv.results_keys, hinv.actions_sub, ?_,
            hinv.actions_nodup, hinv.topo⟩, Or.inr rfl⟩
          · intro e he
            exact hinv.steps_sub e (List.mem_filter.mp he).1
          · exact hinv.steps_nodup.filter _
          · intro act ha e he
            exact hinv.actions_not_pending act ha e (List.mem_filter.mp he).1
        · simp only [h2, Bool.false_eq_true, if_false] at hvisit
          have hst : st' = { st with
              unresolvable := st.unresolvable ++ [a] } := by
            simpa [pure, Except.pure] using hvisit.symm
          subst hst
          exact ⟨⟨hinv.steps_sub, hinv.steps_nodup, hinv.results_keys,
            hinv.actions_sub, hinv.actions_not_pending, hinv.actions_nodup,
            hinv.topo⟩, Or.inl rfl⟩
      | unknownAddresses as =>
        simp [throw, throwThe, MonadExceptOf.throw] at hvisit
      | failedCheck v => simp [throw, throwThe, MonadExceptOf.throw] at hvisit
      | attributeError => simp [throw, throwThe, MonadExceptOf.throw] at hvisit
      | raisedError v => simp [throw, throwThe, MonadExceptOf.throw] at hvisit
      | valueError m => simp [throw, throwThe, MonadExceptOf.throw] at hvisit
      | typeError m => simp [throw, throwThe, MonadExceptOf.throw] at hvisit
      | specNotFound => simp [throw, throwThe, MonadExceptOf.throw] at hvisit
      | outOfFuel => simp [throw, throwThe, MonadExceptOf.throw] at hvisit
    | ok vs =>
      rw [hres] at hvisit
      cases hafter : parseAfter stepAddr.base node.after with
      | error e =>
        rw [hafter] at hvisit
        simp [Bind.bind, Except.bind] at hvisit
      | ok after =>
        rw [hafter] at hvisit
        simp only [Bind.bind, Except.bind] at hvisit
        by_cases h3 : after.all (fun a => amem st.results a) = true
        · rw [if_pos h3] at hvisit
          have hst : st' = { st with
              actions := st.actions ++
                [{ type := getActionType node, address := stepAddr,
                   state := .planned, snapshot := .vnone, result := .vnone,
                   error := .vnone }],
              steps := aerase st.steps stepAddr,
              results := ainsert st.results stepAddr .placeholder } := by
            simpa [pure, Except.pure] using hvisit.symm
          subst hst
          refine ⟨⟨?_, ?_, ?_, ?_, ?_, ?_, ?_⟩, Or.inr rfl⟩
          · intro e he
            exact hinv.steps_sub e (List.mem_filter.mp he).1
          · exact hinv.steps_nodup.filter _
          · intro a
            rw [amem_ainsert, hinv.results_keys a]
            simp [List.any_append, Bool.or_assoc]
          · intro act ha
            rcases List.mem_append.mp ha with ha | ha
            · exact hinv.actions_sub act ha
            · simp only [List.mem_singleton] at ha
              subst ha
              exact ⟨(stepAddr, node), hinv.steps_sub _ hmem, addrEq_refl stepAddr⟩
          · intro act ha e he
            rcases List.mem_append.mp ha with ha | ha
            · exact hinv.actions_not_pending act ha e (List.mem_filter.mp he).1
            · simp only [List.mem_singleton] at ha
              subst ha
              have hf := (List.mem_filter.mp he).2
              cases hc : addrEq e.1 stepAddr
              · rfl
              · rw [hc] at hf; simp at hf
          · rw [List.pairwise_append]
            refine ⟨hinv.actions_nodup, List.pairwise_singleton _ _, ?_⟩
            intro a₁ h₁ a₂ h₂
            simp only [List.mem_singleton] at h₂
            subst h₂
            have hnp := hinv.actions_not_pending a₁ h₁ (stepAddr, node) hmem
            rw [addrEq_symm]
            exact hnp
          · intro i hi l hl
            by_cases hio : i < st.actions.length
            · rw [List.get_append i hio] at hl
              rcases hinv.topo i hio l hl with h | ⟨j, hj, hja⟩
              · exact Or.inl h
              · refine Or.inr ⟨j, by omega, ?_⟩
                rw [List.get_append j (by omega)]
                exact hja
            · have hieq : i = st.actions.length := by
                simp only [List.length_append, List.length_singleton] at hi
                omega
              subst hieq
              have hg : (st.actions ++
                  [{ type := getActionType node, address := stepAddr,
                     state := .planned, snapshot := .vnone, result := .vnone,
                     error := .vnone : Action }]).get ⟨st.actions.length, hi⟩ =
                  { type := getActionType node, address := stepAddr,
                    state := .planned, snapshot := .vnone, result := .vnone,
                    error := .vnone : Action } := by
                simp
              rw [hg] at hl
              have hpresent : amem st.results l = true :=
                resolveDeps_ok_mem _ _ _ hres l hl
              rw [hinv.results_keys l] at hpresent
              rcases Bool.or_eq_true_iff.mp hpresent with h | h
              · exact Or.inl h
              · obtain ⟨act', hmem'', hpa⟩ := List.any_eq_true.mp h
                obtain ⟨⟨j, hjlt⟩, hget⟩ := List.mem_iff_get.mp hmem''
                refine Or.inr ⟨j, hjlt, ?_⟩
                rw [List.get_append j hjlt, hget]
                exact hpa
        · rw [if_neg h3] at hvisit
          have hst : st = st' := by simpa [pure, Except.pure] using hvisit
          subst hst
          exact ⟨hinv, Or.inl rfl⟩

theorem planPass_inv (strategy : Strategy) (init : List (Address × Value)) :
    ∀ (entries : List (Address × SpecNode)) (st st' : PlanState),
    PlanInv strategy init st →
    (∀ e ∈ entries, e ∈ st.steps) →
    List.Pairwise (fun e₁ e₂ => addrEq e₁.1 e₂.1 = false) entries →
    planPass strategy entries st = .ok st' →
    PlanInv strategy init st'
  | [], st, st', hinv, _, _, hpass => by
    have hst : st = st' := by simpa [planPass, pure, Except.pure] using hpass
    subst hst
    exact hinv
  | e :: rest, st, st', hinv, hsub, hnd, hpass => by
    simp only [planPass] at hpass
    cases hv : planVisit strategy st e with
    | error err =>
      rw [hv] at hpass
      simp [Bind.bind, Except.bind] at hpass
    | ok st₁ =>
      rw [hv] at hpass
      simp only [Bind.bind, Except.bind] at hpass
      obtain ⟨hinv₁, hsteps₁⟩ :=
        planVisit_inv strategy init st st₁ e hinv (hsub e (by simp)) hv
      have hsub' : ∀ e' ∈ rest, e' ∈ st₁.steps := by
        intro e' he'
        have hmem : e' ∈ st.steps := hsub e' (by simp [he'])
        rcases hsteps₁ with h | h
        · rw [h]; exact hmem
        · rw [h]
          refine List.mem_filter.mpr ⟨hmem, ?_⟩
          have hne := (List.pairwise_cons.mp hnd).1 e' he'
          rw [addrEq_symm] at hne
          simp [aerase] at *
          simp [hne]
      exact planPass_inv strategy init rest st₁ st' hinv₁ hsub'
        (List.pairwise_cons.mp hnd).2 hpass

theorem planLoop_inv (strategy : Strategy) (init : List (Address × Value)) :
    ∀ (fuel : Nat) (prev : Option (List (Address × SpecNode)))
      (st : PlanState) (actions : List Action),
    PlanInv strategy init st →
    planLoop strategy fuel prev st = .ok actions →
    ∃ st', PlanInv strategy init st' ∧ st'.actions = actions
  | 0, prev, st, actions, hinv, h => by
    simp [planLoop, throw, throwThe, MonadExceptOf.throw] at h
  | fuel + 1, prev, st, actions, hinv, h => by
    rw [planLoop] at h
    by_cases hemp : st.steps.isEmpty = true
    · rw [if_pos hemp] at h
      have hst : st.actions = actions := by
        simpa [pure, Except.pure] using h
      exact ⟨st, hinv, hst⟩
    · rw [if_neg hemp] at h
      by_cases hguard : prev = some (sortedSteps st.steps)
      · rw [if_pos hguard] at h
        simp [throw, throwThe, MonadExceptOf.throw] at h
      · rw [if_neg hguard] at h
        cases hpass : planPass strategy (sortedSteps st.steps)
            { st with unresolvable := [] } with
        | error err =>
          rw [hpass] at h
          simp [Bind.bind, Except.bind] at h
        | ok st₁ =>
          rw [hpass] at h
          simp only [Bind.bind, Except.bind] at h
          have hperm : List.Perm (sortedSteps st.steps) st.steps :=
            List.perm_insertionSort _ _
          have hinvMid : PlanInv strategy init { st with unresolvable := [] } :=
            ⟨hinv.steps_sub, hinv.steps_nodup, hinv.results_keys,
             hinv.actions_sub, hinv.actions_not_pending, hinv.actions_nodup,
             hinv.topo⟩
          have hsymm : Symmetric
              (fun (e₁ e₂ : Address × SpecNode) => addrEq e₁.1 e₂.1 = false) := by
            intro x y hxy
            rw [addrEq_symm]
            exact hxy
          have hinv₁ : PlanInv strategy init st₁ :=
            planPass_inv strategy init (sortedSteps st.steps)
              { st with unresolvable := [] } st₁ hinvMid
              (fun e he => hperm.mem_iff.mp he)
              ((hperm.pairwise_iff (fun hxy => hsymm hxy)).mpr hinv.steps_nodup)
              hpass
          exact planLoop_inv strategy init fuel (some (sortedSteps st.steps))
            st₁ actions hinv₁ h

theorem generate_plan_ok_inv (strategy : Strategy)
    (availableArtifacts : List Address) (plan : Plan)
    (hnodup : List.Pairwise
      (fun (e₁ e₂ : Address × SpecNode) => addrEq e₁.1 e₂.1 = false)
      strategy.steps)
    (hgen : generatePlan strategy availableArtifacts = .ok plan) :
    ∃ st', PlanInv strategy
      (aunion (availableArtifacts.map (fun a => (a, Value.placeholder)))
        strategy.resources) st' ∧ st'.actions = plan.actions := by
  simp only [generatePlan] at hgen
  cases hloop : planLoop strategy (2 * strategy.steps.length + 3) none
      { steps := strategy.steps,
        skip := (strategy.artifacts.map Prod.fst).filter
          (fun a => !acontains availableArtifacts a),
        results := aunion
          (availableArtifacts.map (fun a => (a, Value.placeholder)))
          strategy.resources,
        actions := [], unresolvable := [] } with
  | error e =>
    rw [hloop] at hgen
    simp [Bind.bind, Except.bind] at hgen
  | ok actions =>
    rw [hloop] at hgen
    have hpl : plan = { actions := actions } := by
      simpa [Bind.bind, Except.bind, pure, Except.pure] using hgen.symm
    subst hpl
    have hinv0 : PlanInv strategy
        (aunion (availableArtifacts.map (fun a => (a, Value.placeholder)))
          strategy.resources)
        { steps := strategy.steps,
          skip := (strategy.artifacts.map Prod.fst).filter
            (fun a => !acontains availableArtifacts a),
          results := aunion
            (availableArtifacts.map (fun a => (a, Value.placeholder)))
            strategy.resources,
          actions := [], unresolvable := [] } := by
      refine ⟨fun e he => he, hnodup, ?_, ?_, ?_, ?_, ?_⟩
      · intro a; simp
      · intro act ha; simp at ha
      · intro act ha; simp at ha
      · simp
      · intro i hi; simp at hi
    exact planLoop_inv strategy _ _ none _ actions hinv0 hloop

/-- C2: the plan produced by `generate_plan` is a topological order of the
emitted actions: under the strategy well-formedness invariant that
addresses are globally unique (pending node keys are duplicate-free and no
step or check shares an address with an available artifact or a resource),
for every action α of the plan there is no action β later in the plan with
β's address among the dependency addresses of α's address. -/
theorem generate_plan_topological (strategy : Strategy)
    (availableArtifacts : List Address) (plan : Plan)
    (hnodup : List.Pairwise
      (fun (e₁ e₂ : Address × SpecNode) => addrEq e₁.1 e₂.1 = false)
      strategy.steps)
    (hart : ∀ e ∈ strategy.steps, acontains availableArtifacts e.1 = false)
    (hres : ∀ e ∈ strategy.steps, amem strategy.resources e.1 = false)
    (hgen : generatePlan strategy availableArtifacts = .ok plan) :
    ∀ i j (hi : i < plan.actions.length) (hj : j < plan.actions.length),
      i < j →
      ∀ l ∈ strategy.depAddresses ((plan.actions.get ⟨i, hi⟩).address),
        addrEq ((plan.actions.get ⟨j, hj⟩).address) l = false := by
  obtain ⟨st', hinv, hacts⟩ :=
    generate_plan_ok_inv strategy availableArtifacts plan hnodup hgen
  obtain ⟨steps', skip', results', actions', unres'⟩ := st'
  simp only at hacts
  subst hacts
  intro i j hi hj hij l hl
  have hi' : i < plan.actions.length := hi
  have hj' : j < plan.actions.length := hj
  -- the initial results map contains no step/check address
  have hinit : ∀ act ∈ plan.actions,
      amem (aunion (availableArtifacts.map (fun a => (a, Value.placeholder)))
        strategy.resources) act.address = false := by
    intro act hact
    obtain ⟨e, he, heq⟩ := hinv.actions_sub act hact
    rw [← amem_congr _ heq, amem_aunion, amem_placeholders,
      hart e he, hres e he]
    rfl
  cases hc : addrEq ((plan.actions.get ⟨j, hj⟩).address) l
  · rfl
  · exfalso
    rcases hinv.topo i hi' l hl with h | ⟨k, hk, hka⟩
    · -- the leaf is an initial key, but it equals a step address
      have hj'' := hinit (plan.actions.get ⟨j, hj⟩) (plan.actions.get_mem _ _)
      rw [amem_congr _ hc] at hj''
      rw [h] at hj''
      exact absurd hj'' (by simp)
    · -- the leaf is an earlier action's address: two distinct positions
      -- with Python-equal addresses
      have hkj : addrEq ((plan.actions.get ⟨k, Nat.lt_trans hk hi⟩).address)
          ((plan.actions.get ⟨j, hj⟩).address) = true := by
        refine addrEq_trans hka ?_
        rw [addrEq_symm]
        exact hc
      have hpair := List.pairwise_iff_get.mp hinv.actions_nodup
        ⟨k, Nat.lt_trans hk hi⟩ ⟨j, hj⟩ (by simp; omega)
      rw [hpair] at hkj
      exact absurd hkj (by simp)

/-- Witness for `generate_plan_topological`: the diamond strategy's plan
`RUN step-bar; RUN step-foo; CHECK check` is topologically ordered; in
particular the action after `RUN step-bar` is not among `step-bar`'s
dependency addresses. -/
theorem generate_plan_topological_witness :
    addrEq ((planDiamond.actions.get ⟨1, by decide⟩).address) addrArtifact =
      false :=
  generate_plan_topological strategyDiamond [addrArtifact] planDiamond
    (by decide) (by decide) (by decide) (by rfl)
    0 1 (by decide) (by decide) (by decide) addrArtifact (by decide)

end Treb
